import Mathlib

/-!
Shallow embedding of the country-reveal matching engine of the scratch-map
globe repository: the disk-coverage matcher, the visited-countries
computation, the area aggregation, the country-identifier derivation, the
geocode-cache merge and the scratch-set interaction handlers.

Geometry primitives supplied by the external geometry library (bounding box,
centroid, point-in-polygon, intersection, great-circle distance) are
parameters of the embedding; a fallible primitive returns an Option, with
none standing for a raised error that the surrounding try/catch observes.
-/

namespace ScratchMap

/-- A geographic point, longitude then latitude, in degrees. -/
structure Pt where
  lng : ℚ
  lat : ℚ

/-- An axis-aligned bounding box [minX, minY, maxX, maxY] as produced by the
geometry library's bbox primitive. -/
structure Box where
  minX : ℚ
  minY : ℚ
  maxX : ℚ
  maxY : ℚ

/-- The geometry primitives the disk-coverage matcher calls, abstracted over
the country representation C and the disk representation K.  Fallible
primitives (those the source wraps in try/catch) return Option. -/
structure Geo (C K : Type) where
  bboxC : C → Option Box
  bboxK : K → Box
  centroid : C → Option Pt
  ptInDisk : Pt → K → Option Bool
  ptInCountry : Pt → C → Option Bool
  intersects : C → K → Option Bool
  dist : Pt → Pt → ℚ
  center : K → Pt

/-- The module-level default radius constant (kilometers). -/
def RADIUS_KM : ℚ := 100

/-- The broad-phase rejection test of the matcher, literally the four
comparisons of the source: the pair is skipped when the country box lies
strictly to the left, right, below or above the disk box. -/
def bboxSkip (cb kb : Box) : Bool :=
  decide (cb.maxX < kb.minX) || decide (cb.minX > kb.maxX) ||
  decide (cb.maxY < kb.minY) || decide (cb.minY > kb.maxY)

/-- The disk loop of the matcher: for each disk, broad-phase rejection, then
centroid-in-disk, then disk-center-in-country, then the intersection
primitive with the distance-heuristic fallback when it raises; none is an
error escaping to the outer catch. -/
def scanDisks (g : Geo C K) (c : C) (cb : Box) : List K → Option Bool
  | [] => some false
  | k :: ks =>
    if bboxSkip cb (g.bboxK k) then scanDisks g c cb ks
    else
      match g.centroid c with
      | none => none
      | some cen =>
        match g.ptInDisk cen k with
        | none => none
        | some true => some true
        | some false =>
          match g.ptInCountry (g.center k) c with
          | none => none
          | some true => some true
          | some false =>
            match g.intersects c k with
            | some true => some true
            | some false => scanDisks g c cb ks
            | none =>
              if g.dist cen (g.center k) ≤ RADIUS_KM * (3 / 2) then some true
              else scanDisks g c cb ks

/-- The matcher: an empty disk collection yields the constant-false
function; otherwise the country bbox and the disk loop run inside the outer
try, and any escaping error is caught and turned into false. -/
def isCountryScratched (g : Geo C K) (disks : List K) (c : C) : Bool :=
  if disks.isEmpty then false
  else
    match g.bboxC c with
    | none => false
    | some cb =>
      match scanDisks g c cb disks with
      | some b => b
      | none => false

/-- Total geometry primitives for the specification reading of the matcher:
every primitive succeeds except possibly the polygon-intersection test,
whose none means the primitive cannot decide. -/
structure SpecGeo (C K : Type) where
  bboxC : C → Box
  bboxK : K → Box
  centroid : C → Pt
  ptInDisk : Pt → K → Bool
  ptInCountry : Pt → C → Bool
  intersects : C → K → Option Bool
  dist : Pt → Pt → ℚ
  center : K → Pt
  radius : K → ℚ

/-- Spec wording: the two boxes overlap on both axes. -/
def boxesOverlap (a b : Box) : Bool :=
  decide (b.minX ≤ a.maxX) && decide (a.minX ≤ b.maxX) &&
  decide (b.minY ≤ a.maxY) && decide (a.minY ≤ b.maxY)

/-- Modelled from the spec: the tiered algorithm.  For each disk in order:
skip unless the boxes overlap; covered if the centroid lies in the disk,
else if the disk center lies in the country, else if the intersection test
reports overlap; when the intersection primitive cannot decide, covered
exactly when the centroid-to-center distance is at most 1.5 times the disk
radius; short-circuit on the first match, not covered after exhausting the
collection. -/
def coveredSpec (s : SpecGeo C K) (c : C) : List K → Bool
  | [] => false
  | k :: ks =>
    if ¬ boxesOverlap (s.bboxC c) (s.bboxK k) then coveredSpec s c ks
    else if s.ptInDisk (s.centroid c) k then true
    else if s.ptInCountry (s.center k) c then true
    else
      match s.intersects c k with
      | some true => true
      | some false => coveredSpec s c ks
      | none =>
        if s.dist (s.centroid c) (s.center k) ≤ s.radius k * (3 / 2) then true
        else coveredSpec s c ks

/-- View total primitives as fallible ones that never raise, except for the
intersection primitive whose undecided outcome raises. -/
def SpecGeo.toGeo (s : SpecGeo C K) : Geo C K where
  bboxC := fun c => some (s.bboxC c)
  bboxK := s.bboxK
  centroid := fun c => some (s.centroid c)
  ptInDisk := fun p k => some (s.ptInDisk p k)
  ptInCountry := fun p c => some (s.ptInCountry p c)
  intersects := s.intersects
  dist := s.dist
  center := s.center

/-- A point lies inside a bounding box. -/
def ptInBox (p : Pt) (b : Box) : Prop :=
  b.minX ≤ p.lng ∧ p.lng ≤ b.maxX ∧ b.minY ≤ p.lat ∧ p.lat ≤ b.maxY

/-! ### Visited-countries computation -/

/-- A geocoded place as consumed by the visited-countries computation; lat
and lng equal to zero are falsy in the source's truthiness checks. -/
structure GeoPlace where
  geocoded : Bool
  lat : ℚ
  lng : ℚ

/-- A raw country record before the bbox pre-computation: its geometry, the
result of the bbox primitive (none when the primitive raised, which excludes
the record), and the already-derived display name (empty when every name
field was missing, which also excludes the record). -/
structure RawCountry (C : Type) where
  geom : C
  bboxQ : Option Box
  countryName : String

/-- A country record surviving the pre-computation, carrying its bbox. -/
structure CountryBox (C : Type) where
  geom : C
  bbox : Box
  countryName : String

/-- The up-front pass of the computation: map each country to its bbox,
dropping records whose bbox computation raised or whose name is empty. -/
def countriesWithBbox (cs : List (RawCountry C)) : List (CountryBox C) :=
  cs.filterMap fun c =>
    match c.bboxQ with
    | none => none
    | some b => if c.countryName = "" then none else some ⟨c.geom, b, c.countryName⟩

/-- The inner loop for one place: bounding-box pre-check, then
point-in-polygon of the place point; the scan stops at the first country
containing the point; a raising point-in-polygon test skips that country. -/
def findCountry (pip : Pt → C → Option Bool) (lng lat : ℚ) :
    List (CountryBox C) → Option String
  | [] => none
  | c :: cs =>
    if lng < c.bbox.minX ∨ lng > c.bbox.maxX ∨ lat < c.bbox.minY ∨ lat > c.bbox.maxY then
      findCountry pip lng lat cs
    else
      match pip ⟨lng, lat⟩ c.geom with
      | some true => some c.countryName
      | some false => findCountry pip lng lat cs
      | none => findCountry pip lng lat cs

/-- Source truthiness guard on a place: geocoded, and lat and lng nonzero. -/
def placeEligible (p : GeoPlace) : Bool :=
  p.geocoded && !(decide (p.lat = 0)) && !(decide (p.lng = 0))

/-- Insertion into the set of visited names, keeping insertion order. -/
def addName (acc : List String) (n : String) : List String :=
  if n ∈ acc then acc else acc ++ [n]

/-- One step of the place loop: an eligible place contributes the name of
the first country found to contain it, if any. -/
def visitStep (pip : Pt → C → Option Bool) (cw : List (CountryBox C))
    (acc : List String) (p : GeoPlace) : List String :=
  if placeEligible p then
    match findCountry pip p.lng p.lat cw with
    | some n => addName acc n
    | none => acc
  else acc

/-- The accumulation over all places of the names of the countries found. -/
def visitedNames (pip : Pt → C → Option Bool) (cw : List (CountryBox C))
    (places : List GeoPlace) : List String :=
  places.foldl (visitStep pip cw) []

/-- The visited-countries computation: guard on empty inputs, accumulate the
name of the first country containing each eligible place point, then return
the sorted deduplicated list together with its length. -/
def visitedCountriesData (pip : Pt → C → Option Bool)
    (countries : List (RawCountry C)) (places : List GeoPlace) : ℕ × List String :=
  if countries.isEmpty || places.isEmpty then (0, [])
  else
    let sorted := List.insertionSort (· ≤ ·)
      (visitedNames pip (countriesWithBbox countries) places)
    (sorted.length, sorted)

/-- The first-match predicate of the inner loop: the place point passes the
bounding-box pre-check of this country and the point-in-polygon primitive
reports containment. -/
def countryHit (pip : Pt → C → Option Bool) (lng lat : ℚ) (c : CountryBox C) : Bool :=
  !(decide (lng < c.bbox.minX ∨ lng > c.bbox.maxX ∨ lat < c.bbox.minY ∨ lat > c.bbox.maxY))
    && decide (pip ⟨lng, lat⟩ c.geom = some true)

/-! ### Area aggregation -/

/-- The merge loop of mergeCircles: union the accumulator with each further
disk in turn; when the union primitive raises (none), the accumulator is
kept unchanged and the loop moves on. -/
def mergeLoop (union : P → P → Option P) : P → List P → P
  | m, [] => m
  | m, c :: cs =>
    match union m c with
    | some m2 => mergeLoop union m2 cs
    | none => mergeLoop union m cs

/-- mergeCircles: empty and singleton collections are returned as they are;
otherwise the merge loop runs from the first disk and the resulting single
feature is returned as a one-element collection. -/
def mergeCircles (union : P → P → Option P) : List P → List P
  | [] => []
  | [c] => [c]
  | c :: cs => [mergeLoop union c cs]

/-- calculateTotalArea: zero for an empty collection, otherwise the sum of
the areas of the merged features, converted from square meters to square
kilometers. -/
def calculateTotalArea (union : P → P → Option P) (area : P → ℚ)
    (features : List P) : ℚ :=
  if features.isEmpty then 0
  else ((mergeCircles union features).map area).sum / 1000000

/-- Idealized disk model for the aggregation primitives: a region is a
finite set of unit cells, union is set union (and never raises), area is
the number of cells. -/
def cellUnion (a b : Finset (ℤ × ℤ)) : Option (Finset (ℤ × ℤ)) := some (a ∪ b)

/-- Cell-counting area for the idealized disk model. -/
def cellArea (a : Finset (ℤ × ℤ)) : ℚ := a.card

/-- Union of a whole list of cell regions. -/
def unionAll (l : List (Finset (ℤ × ℤ))) : Finset (ℤ × ℤ) :=
  l.foldl (· ∪ ·) ∅

/-! ### Country identifier derivation -/

/-- The name fields of a country record's properties; none models an absent
field, and the empty string is falsy like an absent field. -/
structure CountryProps where
  name : Option String
  NAME : Option String
  ADMIN : Option String
  NAME_EN : Option String

/-- JavaScript-style truthy-or: the left value when present and non-empty,
the right value otherwise. -/
def jsOr (a : Option String) (b : String) : String :=
  match a with
  | some s => if s = "" then b else s
  | none => b

/-- getCountryId: the fallback chain name, NAME, ADMIN, NAME_EN, with the
sentinel unknown when every field is falsy. -/
def getCountryId (c : CountryProps) : String :=
  jsOr c.name (jsOr c.NAME (jsOr c.ADMIN (jsOr c.NAME_EN "unknown")))

/-- Modelled from the spec: a prioritized list of field accessors tried in
order, returning the first non-empty result, with a default. -/
def firstNonEmptyField (fields : List (Option String)) (dflt : String) : String :=
  match fields with
  | [] => dflt
  | f :: fs =>
    match f with
    | some s => if s = "" then firstNonEmptyField fs dflt else s
    | none => firstNonEmptyField fs dflt

/-! ### Geocode cache -/

/-- First-match association lookup, the object-property access of the
embedding. -/
def lookupA (m : List (String × V)) (k : String) : Option V :=
  match m with
  | [] => none
  | (k2, v) :: rest => if k2 = k then some v else lookupA rest k

/-- Object-spread merge of two key-value collections: the overlay's entries
win on key collision, base entries survive otherwise. -/
def spreadMerge (base overlay : List (String × V)) : List (String × V) :=
  base.filter (fun p => (lookupA overlay p.1).isNone) ++ overlay

/-- ASCII lower-casing of one character. -/
def lowerChar (c : Char) : Char :=
  if 65 ≤ c.toNat ∧ c.toNat ≤ 90 then Char.ofNat (c.toNat + 32) else c

/-- Lower-casing of a query string. -/
def jsToLower (s : String) : String := String.mk (s.data.map lowerChar)

/-- getGeocodeCache: the bundled file data, overlaid by the durable-store
data when the store holds a readable entry (none models an absent entry or
a read/parse failure). -/
def getGeocodeCache (fileData : List (String × V))
    (store : Option (List (String × V))) : List (String × V) :=
  match store with
  | some localData => spreadMerge fileData localData
  | none => fileData

/-- getCachedResult: look the lower-cased query up in the merged cache. -/
def getCachedResult (fileData : List (String × V))
    (store : Option (List (String × V))) (query : String) : Option V :=
  lookupA (getGeocodeCache fileData store) (jsToLower query)

/-! ### Scratch-set interaction handlers -/

/-- The interaction state: the dragging flag and the set of scratched
country identifiers. -/
structure UIState where
  isDragging : Bool
  scratched : Finset String

/-- The pointer events the component handles. -/
inductive UIEvent where
  | mouseDown
  | mouseUp
  | polygonHover (polygon : Option CountryProps)
  | polygonClick (polygon : Option CountryProps)

/-- The hover handler: scratch the hovered country only while dragging. -/
def handlePolygonHover (dragging : Bool) (polygon : Option CountryProps)
    (s : Finset String) : Finset String :=
  match polygon with
  | some p => if dragging then insert (getCountryId p) s else s
  | none => s

/-- The click handler: scratch the clicked country. -/
def handlePolygonClick (polygon : Option CountryProps)
    (s : Finset String) : Finset String :=
  match polygon with
  | some p => insert (getCountryId p) s
  | none => s

/-- One interaction step. -/
def stepUI (st : UIState) (e : UIEvent) : UIState :=
  match e with
  | .mouseDown => { st with isDragging := true }
  | .mouseUp => { st with isDragging := false }
  | .polygonHover poly =>
    { st with scratched := handlePolygonHover st.isDragging poly st.scratched }
  | .polygonClick poly =>
    { st with scratched := handlePolygonClick poly st.scratched }

/-- A whole interaction session. -/
def runUI (st : UIState) (evs : List UIEvent) : UIState :=
  evs.foldl stepUI st

/-! ### Concrete fixtures used by the witnesses -/

/-- A concrete total-geometry instance: a country box overlapping a disk
box, with the disk center inside the country. -/
def c1Fix : SpecGeo Unit Unit where
  bboxC := fun _ => ⟨0, 0, 10, 10⟩
  bboxK := fun _ => ⟨5, 5, 15, 15⟩
  centroid := fun _ => ⟨2, 2⟩
  ptInDisk := fun _ _ => false
  ptInCountry := fun _ _ => true
  intersects := fun _ _ => some false
  dist := fun _ _ => 0
  center := fun _ => ⟨6, 6⟩
  radius := fun _ => 100

/-- One concrete country record for the visited-countries witness. -/
def c3Countries : List (RawCountry Unit) := [⟨(), some ⟨0, 0, 10, 10⟩, "France"⟩]

/-- One concrete eligible place for the visited-countries witness. -/
def c3Places : List GeoPlace := [⟨true, 1, 1⟩]

/-- A point-in-polygon primitive reporting containment, for the
visited-countries witness. -/
def c3Pip : Pt → Unit → Option Bool := fun _ _ => some true

/-- A concrete fallible-geometry instance whose centroid primitive raises,
for the error-containment witness. -/
def c6Fix : Geo Unit Unit where
  bboxC := fun _ => some ⟨0, 0, 10, 10⟩
  bboxK := fun _ => ⟨5, 5, 15, 15⟩
  centroid := fun _ => none
  ptInDisk := fun _ _ => some false
  ptInCountry := fun _ _ => some false
  intersects := fun _ _ => some false
  dist := fun _ _ => 0
  center := fun _ => ⟨6, 6⟩

/-- A concrete fallible-geometry instance for the broad-phase soundness
witness: the disk center lies inside the country polygon. -/
def c5Fix : Geo Unit Unit where
  bboxC := fun _ => some ⟨0, 0, 10, 10⟩
  bboxK := fun _ => ⟨5, 5, 15, 15⟩
  centroid := fun _ => some ⟨2, 2⟩
  ptInDisk := fun _ _ => some false
  ptInCountry := fun _ _ => some true
  intersects := fun _ _ => some false
  dist := fun _ _ => 0
  center := fun _ => ⟨6, 6⟩

/-! ### Theorems -/

lemma bboxSkip_eq_false_of_shared (p : Pt) (a b : Box)
    (ha : ptInBox p a) (hb : ptInBox p b) : bboxSkip a b = false := by
  obtain ⟨ha1, ha2, ha3, ha4⟩ := ha
  obtain ⟨hb1, hb2, hb3, hb4⟩ := hb
  simp only [bboxSkip, Bool.or_eq_false_iff, decide_eq_false_iff_not, not_lt, gt_iff_lt]
  exact ⟨⟨⟨le_trans hb1 ha2, le_trans ha1 hb2⟩, le_trans hb3 ha4⟩, le_trans ha3 hb4⟩

lemma skip_iff_not_overlap (cb kb : Box) :
    bboxSkip cb kb = true ↔ ¬ boxesOverlap cb kb = true := by
  simp only [bboxSkip, boxesOverlap, Bool.or_eq_true, Bool.and_eq_true,
    decide_eq_true_eq, gt_iff_lt, ← not_le]
  tauto

lemma scanDisks_toGeo_eq (s : SpecGeo C K) (c : C) :
    ∀ ds : List K, (∀ k ∈ ds, s.radius k = RADIUS_KM) →
      scanDisks s.toGeo c (s.bboxC c) ds = some (coveredSpec s c ds) := by
  intro ds
  induction ds with
  | nil => intro _; rfl
  | cons k ks ih =>
    intro h
    have hk : s.radius k = RADIUS_KM := h k (by simp)
    have ihk := ih fun x hx => h x (List.mem_cons_of_mem _ hx)
    simp only [scanDisks, coveredSpec, SpecGeo.toGeo]
    by_cases hskip : bboxSkip (s.bboxC c) (s.bboxK k) = true
    · have hov := (skip_iff_not_overlap (s.bboxC c) (s.bboxK k)).mp hskip
      simp only [hskip, if_true, hov, not_false_iff, ite_true]
      exact ihk
    · have hov : boxesOverlap (s.bboxC c) (s.bboxK k) = true := by
        by_contra hc
        exact hskip ((skip_iff_not_overlap (s.bboxC c) (s.bboxK k)).mpr hc)
      simp only [hskip, if_false, Bool.false_eq_true, hov, not_true, ite_false]
      cases hpd : s.ptInDisk (s.centroid c) k with
      | true => simp
      | false =>
        simp only [if_false, Bool.false_eq_true, ite_false]
        cases hpc : s.ptInCountry (s.center k) c with
        | true => simp
        | false =>
          simp only [if_false, Bool.false_eq_true, ite_false]
          cases hint : s.intersects c k with
          | some b =>
            cases b with
            | true => simp
            | false =>
              simp only []
              exact ihk
          | none =>
            rw [hk]
            by_cases hd : s.dist (s.centroid c) (s.center k) ≤ RADIUS_KM * (3 / 2)
            · simp [hd]
            · simp only [hd, if_false, ite_false]
              exact ihk

/-- C1: for every country and finite disk collection, the disk-coverage
matcher follows the tiered algorithm: broad-phase bounding-box rejection,
then centroid-in-disk, then disk-center-in-country, then the general
intersection test with the 1.5-radius great-circle distance fallback when
the primitive fails, short-circuiting on the first match and reporting not
covered only after exhausting the collection.  Stated as equality with the
tiered specification for geometry providers whose primitives succeed apart
from the intersection test, for disks of the default radius. -/
theorem c1_matcher_follows_tiered_algorithm (s : SpecGeo C K) (c : C)
    (disks : List K) (h : ∀ k ∈ disks, s.radius k = RADIUS_KM) :
    isCountryScratched s.toGeo disks c = coveredSpec s c disks := by
  cases disks with
  | nil => rfl
  | cons k ks =>
    have hscan := scanDisks_toGeo_eq s c (k :: ks) h
    simp only [isCountryScratched, List.isEmpty_cons, Bool.false_eq_true, if_false,
      ite_false]
    show (match scanDisks s.toGeo c (s.bboxC c) (k :: ks) with
      | some b => b
      | none => false) = coveredSpec s c (k :: ks)
    rw [hscan]

/-- Witness for C1 at a concrete instance: one disk whose center lies inside
the country. -/
theorem c1_matcher_follows_tiered_algorithm_witness :
    isCountryScratched c1Fix.toGeo [()] () = coveredSpec c1Fix () [()] ∧
    coveredSpec c1Fix () [()] = true :=
  ⟨c1_matcher_follows_tiered_algorithm c1Fix () [()] (fun _ _ => rfl), by decide⟩

/-- C5: the broad-phase rejection never causes a false negative.  When the
bounding boxes are supersets of the true shapes — the centroid lies in the
country box, a point reported inside the disk lies in the disk box, the
disk center lies in its own box and in the country box when reported inside
the country, and a reported intersection exhibits a point common to both
boxes — every pair for which some tier of the full geometric test reports
coverage passes the bounding-box comparison, so the pair is never
skipped. -/
theorem c5_bbox_prefilter_no_false_negative (g : Geo C K) (c : C) (k : K)
    (cb : Box) (_hbb : g.bboxC c = some cb)
    (hcen : ∀ p, g.centroid c = some p → ptInBox p cb)
    (hdisk : ∀ p, g.ptInDisk p k = some true → ptInBox p (g.bboxK k))
    (hctr : g.ptInCountry (g.center k) c = some true → ptInBox (g.center k) cb)
    (hctrK : ptInBox (g.center k) (g.bboxK k))
    (hint : g.intersects c k = some true →
      ∃ p, ptInBox p cb ∧ ptInBox p (g.bboxK k))
    (hcov : (∃ p, g.centroid c = some p ∧ g.ptInDisk p k = some true) ∨
      g.ptInCountry (g.center k) c = some true ∨ g.intersects c k = some true) :
    bboxSkip cb (g.bboxK k) = false := by
  rcases hcov with ⟨p, hp, hpd⟩ | hpc | hix
  · exact bboxSkip_eq_false_of_shared p cb (g.bboxK k) (hcen p hp) (hdisk p hpd)
  · exact bboxSkip_eq_false_of_shared (g.center k) cb (g.bboxK k) (hctr hpc) hctrK
  · obtain ⟨p, h1, h2⟩ := hint hix
    exact bboxSkip_eq_false_of_shared p cb (g.bboxK k) h1 h2

/-- Witness for C5 at a concrete instance: the disk center tier reports
coverage and the pair indeed passes the broad-phase comparison. -/
theorem c5_bbox_prefilter_no_false_negative_witness :
    bboxSkip ⟨0, 0, 10, 10⟩ (c5Fix.bboxK ()) = false :=
  c5_bbox_prefilter_no_false_negative c5Fix () () ⟨0, 0, 10, 10⟩ rfl
    (fun p hp => by
      have hp2 : (⟨2, 2⟩ : Pt) = p := Option.some.inj hp
      rw [← hp2]
      exact ⟨by decide, by decide, by decide, by decide⟩)
    (fun p hp => Bool.noConfusion (Option.some.inj hp))
    (fun _ => ⟨by decide, by decide, by decide, by decide⟩)
    ⟨by decide, by decide, by decide, by decide⟩
    (fun hp => Bool.noConfusion (Option.some.inj hp))
    (Or.inr (Or.inl rfl))

lemma scanDisks_ne_none (g : Geo C K) (c : C) (cb : Box)
    (hc : g.centroid c ≠ none) (hd : ∀ p k, g.ptInDisk p k ≠ none)
    (hpc : ∀ p, g.ptInCountry p c ≠ none) :
    ∀ ds : List K, scanDisks g c cb ds ≠ none := by
  intro ds
  induction ds with
  | nil => simp [scanDisks]
  | cons k ks ih =>
    rw [scanDisks]
    by_cases hskip : bboxSkip cb (g.bboxK k) = true
    · rw [if_pos hskip]
      exact ih
    · rw [if_neg hskip]
      cases hcen : g.centroid c with
      | none => exact absurd hcen hc
      | some cen =>
        simp only [hcen]
        cases hdk : g.ptInDisk cen k with
        | none => exact absurd hdk (hd cen k)
        | some b1 =>
          cases b1 with
          | true => simp
          | false =>
            simp only [hdk]
            cases hpck : g.ptInCountry (g.center k) c with
            | none => exact absurd hpck (hpc (g.center k))
            | some b2 =>
              cases b2 with
              | true => simp
              | false =>
                simp only [hpck]
                cases hix : g.intersects c k with
                | some b3 => cases b3 <;> simp [ih]
                | none =>
                  simp only [hix]
                  by_cases hdist : g.dist cen (g.center k) ≤ RADIUS_KM * (3 / 2)
                  · simp [hdist]
                  · simp only [hdist, if_false, ite_false]
                    exact ih

/-- C6: the matcher never propagates a geometry-primitive exception.  When
the only failing primitive is the intersection test, the disk scan still
produces a boolean (the failure is absorbed by the per-pair fallback); when
the scan itself raises (a centroid or point-in-polygon failure), or the
country bounding-box computation raises, the country is reported not
covered instead of the error escaping. -/
theorem c6_matcher_error_containment (g : Geo C K) (c : C) (disks : List K) :
    ((g.centroid c ≠ none) → (∀ p k, g.ptInDisk p k ≠ none) →
        (∀ p, g.ptInCountry p c ≠ none) →
        ∀ cb, scanDisks g c cb disks ≠ none)
    ∧ (∀ cb, g.bboxC c = some cb → scanDisks g c cb disks = none →
        isCountryScratched g disks c = false)
    ∧ (g.bboxC c = none → isCountryScratched g disks c = false) := by
  refine ⟨fun hc hd hpc cb => scanDisks_ne_none g c cb hc hd hpc disks, ?_, ?_⟩
  · intro cb hbb hnone
    cases disks with
    | nil => rfl
    | cons k ks => simp [isCountryScratched, hbb, hnone]
  · intro hbb
    cases disks with
    | nil => rfl
    | cons k ks => simp [isCountryScratched, hbb]

/-- Witness for C6 at a concrete instance: the centroid primitive raises on
the only candidate pair and the matcher reports not covered. -/
theorem c6_matcher_error_containment_witness :
    isCountryScratched c6Fix [()] () = false :=
  (c6_matcher_error_containment c6Fix () [()]).2.1 ⟨0, 0, 10, 10⟩ rfl (by decide)

/-- C2, behaviour at the failing input: with two disks whose union raises,
the merge keeps only the accumulated feature — the second disk is dropped
from the returned collection — and with each disk of area 1000000 square
meters the total is 1 square kilometer, not the 2 the claim's
counted-separately policy would give. -/
theorem c2_failed_union_drops_disk :
    mergeCircles (fun _ _ => (none : Option ℕ)) [1, 2] = [1] ∧
    calculateTotalArea (fun _ _ => (none : Option ℕ)) (fun _ => 1000000) [1, 2] = 1 ∧
    calculateTotalArea (fun _ _ => (none : Option ℕ)) (fun _ => 1000000) [1, 2] ≠ 2 := by
  refine ⟨rfl, ?_, ?_⟩ <;> norm_num [calculateTotalArea, mergeCircles, mergeLoop]

lemma foldl_union_eq (l : List (Finset (ℤ × ℤ))) :
    ∀ m : Finset (ℤ × ℤ), l.foldl (· ∪ ·) m = m ∪ unionAll l := by
  induction l with
  | nil => intro m; simp [unionAll]
  | cons c cs ih =>
    intro m
    have hcons : unionAll (c :: cs) = c ∪ unionAll cs := by
      rw [unionAll, List.foldl_cons, Finset.empty_union]
      exact ih c
    rw [List.foldl_cons, ih (m ∪ c), hcons, Finset.union_assoc]

lemma unionAll_cons (c : Finset (ℤ × ℤ)) (cs : List (Finset (ℤ × ℤ))) :
    unionAll (c :: cs) = c ∪ unionAll cs := by
  rw [unionAll, List.foldl_cons, Finset.empty_union]
  exact foldl_union_eq cs c

lemma unionAll_append (l1 l2 : List (Finset (ℤ × ℤ))) :
    unionAll (l1 ++ l2) = unionAll l1 ∪ unionAll l2 := by
  rw [unionAll, List.foldl_append]
  exact foldl_union_eq l2 (unionAll l1)

lemma mergeLoop_cellUnion (l : List (Finset (ℤ × ℤ))) :
    ∀ m : Finset (ℤ × ℤ), mergeLoop cellUnion m l = l.foldl (· ∪ ·) m := by
  induction l with
  | nil => intro m; rfl
  | cons c cs ih => intro m; simp [mergeLoop, cellUnion, ih]

lemma mem_subset_unionAll {c : Finset (ℤ × ℤ)} {l : List (Finset (ℤ × ℤ))}
    (h : c ∈ l) : c ⊆ unionAll l := by
  induction l with
  | nil => cases h
  | cons a as ih =>
    rw [unionAll_cons]
    rcases List.mem_cons.mp h with rfl | h2
    · exact Finset.subset_union_left
    · exact subset_trans (ih h2) Finset.subset_union_right

lemma totalArea_cell_eq (l : List (Finset (ℤ × ℤ))) (hl : l ≠ []) :
    calculateTotalArea cellUnion cellArea l = ((unionAll l).card : ℚ) / 1000000 := by
  cases l with
  | nil => exact absurd rfl hl
  | cons c cs =>
    cases cs with
    | nil => simp [calculateTotalArea, mergeCircles, cellArea, unionAll]
    | cons c2 cs2 =>
      have h1 : mergeCircles cellUnion (c :: c2 :: cs2) =
          [mergeLoop cellUnion c (c2 :: cs2)] := rfl
      rw [calculateTotalArea, if_neg (by simp), h1, mergeLoop_cellUnion,
        foldl_union_eq, unionAll_cons]
      simp [cellArea]
      rw [unionAll_cons, unionAll_cons]

/-- C7: total-area aggregation, with the union and area primitives read as
finite-set union and cell count, is monotonically non-decreasing under
inserting a disk anywhere in the collection, and inserting a disk contained
in an existing disk leaves the total unchanged. -/
theorem c7_total_area_monotone (cs1 cs2 : List (Finset (ℤ × ℤ)))
    (d : Finset (ℤ × ℤ)) :
    calculateTotalArea cellUnion cellArea (cs1 ++ cs2) ≤
      calculateTotalArea cellUnion cellArea (cs1 ++ d :: cs2)
    ∧ ∀ c ∈ cs1 ++ cs2, d ⊆ c →
        calculateTotalArea cellUnion cellArea (cs1 ++ d :: cs2) =
          calculateTotalArea cellUnion cellArea (cs1 ++ cs2) := by
  by_cases h0 : cs1 ++ cs2 = []
  · obtain ⟨h1, h2⟩ := List.append_eq_nil.mp h0
    subst h1; subst h2
    constructor
    · rw [List.nil_append, List.nil_append, totalArea_cell_eq [d] (by simp),
        show calculateTotalArea cellUnion cellArea [] = 0 from rfl]
      positivity
    · intro c hc
      exact absurd hc (by simp)
  · have h1 : cs1 ++ d :: cs2 ≠ [] := by cases cs1 <;> simp
    rw [totalArea_cell_eq _ h0, totalArea_cell_eq _ h1]
    have e1 : unionAll (cs1 ++ d :: cs2) = unionAll cs1 ∪ (d ∪ unionAll cs2) := by
      rw [unionAll_append, unionAll_cons]
    have e0 : unionAll (cs1 ++ cs2) = unionAll cs1 ∪ unionAll cs2 :=
      unionAll_append _ _
    constructor
    · rw [e0, e1]
      apply (div_le_div_iff_of_pos_right (by norm_num : (0 : ℚ) < 1000000)).mpr
      apply Nat.cast_le.mpr
      apply Finset.card_le_card
      exact Finset.union_subset_union (subset_refl _) Finset.subset_union_right
    · intro c hc hdc
      rw [e0, e1]
      have hcu : c ⊆ unionAll cs1 ∪ unionAll cs2 := by
        rcases List.mem_append.mp hc with h | h
        · exact subset_trans (mem_subset_unionAll h) Finset.subset_union_left
        · exact subset_trans (mem_subset_unionAll h) Finset.subset_union_right
      have hdu : d ⊆ unionAll cs1 ∪ unionAll cs2 := subset_trans hdc hcu
      have hset : unionAll cs1 ∪ (d ∪ unionAll cs2) =
          unionAll cs1 ∪ unionAll cs2 := by
        apply Finset.Subset.antisymm
        · apply Finset.union_subset
          · exact Finset.subset_union_left
          · exact Finset.union_subset hdu Finset.subset_union_right
        · exact Finset.union_subset_union (subset_refl _) Finset.subset_union_right
      rw [hset]

/-- Witness for C7 at a concrete instance: a disk contained in an existing
disk leaves the total unchanged. -/
theorem c7_total_area_monotone_witness :
    calculateTotalArea cellUnion cellArea
        ([({(0, 0), (1, 1)} : Finset (ℤ × ℤ))] ++ [({(0, 0)} : Finset (ℤ × ℤ))] ++ []) =
      calculateTotalArea cellUnion cellArea
        ([({(0, 0), (1, 1)} : Finset (ℤ × ℤ))] ++ []) :=
  (c7_total_area_monotone [({(0, 0), (1, 1)} : Finset (ℤ × ℤ))] []
      ({(0, 0)} : Finset (ℤ × ℤ))).2
    ({(0, 0), (1, 1)} : Finset (ℤ × ℤ)) (by decide) (by decide)

lemma findCountry_eq_find (pip : Pt → C → Option Bool) (lng lat : ℚ) :
    ∀ l : List (CountryBox C),
      findCountry pip lng lat l =
        (l.find? (countryHit pip lng lat)).map (fun cb => cb.countryName) := by
  intro l
  induction l with
  | nil => rfl
  | cons c cs ih =>
    rw [findCountry]
    by_cases hskip : lng < c.bbox.minX ∨ lng > c.bbox.maxX ∨
        lat < c.bbox.minY ∨ lat > c.bbox.maxY
    · have hhit : countryHit pip lng lat c = false := by
        simp [countryHit, hskip]
      rw [if_pos hskip, List.find?_cons_of_neg _ (by simp [hhit])]
      exact ih
    · rw [if_neg hskip]
      cases hp : pip ⟨lng, lat⟩ c.geom with
      | some b =>
        cases b with
        | true =>
          have hhit : countryHit pip lng lat c = true := by
            simp [countryHit, hskip, hp]
          rw [List.find?_cons_of_pos _ hhit]
          rfl
        | false =>
          have hhit : countryHit pip lng lat c = false := by
            simp [countryHit, hp]
          rw [List.find?_cons_of_neg _ (by simp [hhit])]
          exact ih
      | none =>
        have hhit : countryHit pip lng lat c = false := by
          simp [countryHit, hp]
        rw [List.find?_cons_of_neg _ (by simp [hhit])]
        exact ih

lemma mem_addName {acc : List String} {n m : String} (h : m ∈ addName acc n) :
    m ∈ acc ∨ m = n := by
  unfold addName at h
  split at h
  · exact Or.inl h
  · rcases List.mem_append.mp h with h2 | h2
    · exact Or.inl h2
    · right; simpa using h2

lemma mem_visitStep {pip : Pt → C → Option Bool} {cw : List (CountryBox C)}
    {acc : List String} {p : GeoPlace} {m : String}
    (h : m ∈ visitStep pip cw acc p) :
    m ∈ acc ∨ (placeEligible p = true ∧ findCountry pip p.lng p.lat cw = some m) := by
  unfold visitStep at h
  by_cases he : placeEligible p = true
  · rw [if_pos he] at h
    cases hf : findCountry pip p.lng p.lat cw with
    | none => rw [hf] at h; exact Or.inl h
    | some n =>
      rw [hf] at h
      rcases mem_addName h with h2 | rfl
      · exact Or.inl h2
      · exact Or.inr ⟨he, rfl⟩
  · rw [if_neg he] at h
    exact Or.inl h

lemma mem_foldl_visit {pip : Pt → C → Option Bool} {cw : List (CountryBox C)} :
    ∀ (places : List GeoPlace) (acc : List String) (m : String),
      m ∈ places.foldl (visitStep pip cw) acc →
      m ∈ acc ∨ ∃ p ∈ places, placeEligible p = true ∧
        findCountry pip p.lng p.lat cw = some m := by
  intro places
  induction places with
  | nil => intro acc m h; exact Or.inl h
  | cons p ps ih =>
    intro acc m h
    rw [List.foldl_cons] at h
    rcases ih _ m h with h2 | ⟨q, hq, he, hf⟩
    · rcases mem_visitStep h2 with h3 | ⟨he, hf⟩
      · exact Or.inl h3
      · exact Or.inr ⟨p, by simp, he, hf⟩
    · exact Or.inr ⟨q, List.mem_cons_of_mem _ hq, he, hf⟩

lemma addName_nodup {acc : List String} {n : String} (h : acc.Nodup) :
    (addName acc n).Nodup := by
  unfold addName
  split
  · exact h
  · next hn =>
    rw [List.nodup_append]
    refine ⟨h, List.nodup_singleton n, ?_⟩
    intro a ha hb
    rw [List.mem_singleton] at hb
    subst hb
    exact hn ha

lemma foldl_visit_nodup {pip : Pt → C → Option Bool} {cw : List (CountryBox C)} :
    ∀ (places : List GeoPlace) (acc : List String), acc.Nodup →
      (places.foldl (visitStep pip cw) acc).Nodup := by
  intro places
  induction places with
  | nil => intro acc h; exact h
  | cons p ps ih =>
    intro acc h
    rw [List.foldl_cons]
    apply ih
    unfold visitStep
    by_cases he : placeEligible p = true
    · rw [if_pos he]
      cases findCountry pip p.lng p.lat cw with
      | none => exact h
      | some n => exact addName_nodup h
    · rw [if_neg he]
      exact h

/-- C3: a country name enters the visited-countries result only through
point-in-polygon membership of a place point itself: whenever a name is in
the result, some eligible place exists whose exact point passes the
bounding-box pre-check of some country and is reported inside its polygon,
and that country is the first hit of the scan for that place. -/
theorem c3_visited_by_exact_point (pip : Pt → C → Option Bool)
    (countries : List (RawCountry C)) (places : List GeoPlace) (n : String)
    (h : n ∈ (visitedCountriesData pip countries places).2) :
    ∃ p ∈ places, placeEligible p = true ∧
      ∃ cb, (countriesWithBbox countries).find? (countryHit pip p.lng p.lat) = some cb ∧
        cb.countryName = n ∧ pip ⟨p.lng, p.lat⟩ cb.geom = some true ∧
        ¬(p.lng < cb.bbox.minX ∨ p.lng > cb.bbox.maxX ∨
          p.lat < cb.bbox.minY ∨ p.lat > cb.bbox.maxY) := by
  by_cases hg : (countries.isEmpty || places.isEmpty) = true
  · rw [visitedCountriesData, if_pos hg] at h
    cases h
  · rw [visitedCountriesData, if_neg hg] at h
    have h2 : n ∈ visitedNames pip (countriesWithBbox countries) places :=
      (List.perm_insertionSort (· ≤ ·) _).mem_iff.mp h
    rcases mem_foldl_visit places [] n h2 with h3 | ⟨p, hp, he, hf⟩
    · cases h3
    · refine ⟨p, hp, he, ?_⟩
      rw [findCountry_eq_find] at hf
      cases hfind : (countriesWithBbox countries).find? (countryHit pip p.lng p.lat) with
      | none => rw [hfind] at hf; cases hf
      | some cb =>
        rw [hfind] at hf
        have hn : cb.countryName = n := Option.some.inj hf
        have hhit := List.find?_some hfind
        have hparts : ¬(p.lng < cb.bbox.minX ∨ p.lng > cb.bbox.maxX ∨
            p.lat < cb.bbox.minY ∨ p.lat > cb.bbox.maxY) ∧
            pip ⟨p.lng, p.lat⟩ cb.geom = some true := by
          simpa [countryHit] using hhit
        exact ⟨cb, rfl, hn, hparts.2, hparts.1⟩

/-- Witness for C3 at a concrete instance: one place inside one country. -/
theorem c3_visited_by_exact_point_witness :
    ∃ p ∈ c3Places, placeEligible p = true ∧
      ∃ cb, (countriesWithBbox c3Countries).find? (countryHit c3Pip p.lng p.lat) = some cb ∧
        cb.countryName = "France" ∧ c3Pip ⟨p.lng, p.lat⟩ cb.geom = some true ∧
        ¬(p.lng < cb.bbox.minX ∨ p.lng > cb.bbox.maxX ∨
          p.lat < cb.bbox.minY ∨ p.lat > cb.bbox.maxY) :=
  c3_visited_by_exact_point c3Pip c3Countries c3Places "France" (by decide)

/-- C4: with zero places the visited-countries computation returns count 0
and an empty list; in general the returned list is deduplicated and sorted
and the returned count is its length. -/
theorem c4_visited_count_sorted_dedup (pip : Pt → C → Option Bool)
    (countries : List (RawCountry C)) :
    visitedCountriesData pip countries [] = (0, []) ∧
    ∀ places : List GeoPlace,
      (visitedCountriesData pip countries places).1 =
        (visitedCountriesData pip countries places).2.length ∧
      (visitedCountriesData pip countries places).2.Sorted (· ≤ ·) ∧
      (visitedCountriesData pip countries places).2.Nodup := by
  constructor
  · simp [visitedCountriesData]
  · intro places
    by_cases hg : (countries.isEmpty || places.isEmpty) = true
    · rw [visitedCountriesData, if_pos hg]
      exact ⟨rfl, List.sorted_nil, List.nodup_nil⟩
    · rw [visitedCountriesData, if_neg hg]
      refine ⟨rfl, List.sorted_insertionSort _ _, ?_⟩
      exact (List.perm_insertionSort (· ≤ ·) _).nodup_iff.mpr
        (foldl_visit_nodup places [] List.nodup_nil)

/-- C8: the country-identifier derivation equals the prioritized
first-non-empty accessor chain over name, NAME, ADMIN, NAME_EN with the
unknown sentinel, and on a record with only NAME_EN populated (non-empty)
it returns that value. -/
theorem c8_country_id_fallback_chain :
    (∀ c : CountryProps,
      getCountryId c = firstNonEmptyField [c.name, c.NAME, c.ADMIN, c.NAME_EN] "unknown")
    ∧ ∀ s : String, s ≠ "" → getCountryId ⟨none, none, none, some s⟩ = s := by
  constructor
  · intro c
    obtain ⟨n, N, A, E⟩ := c
    cases n <;> cases N <;> cases A <;> cases E <;> rfl
  · intro s hs
    simp [getCountryId, jsOr, hs]

/-- Witness for C8 at a concrete record with only NAME_EN populated. -/
theorem c8_country_id_fallback_chain_witness :
    getCountryId ⟨none, none, none, some "Aland"⟩ = "Aland" :=
  c8_country_id_fallback_chain.2 "Aland" (by decide)

lemma lookupA_cons_eq (v2 : V) (rest : List (String × V)) (k : String) :
    lookupA ((k, v2) :: rest) k = some v2 := by
  rw [lookupA, if_pos rfl]

lemma lookupA_cons_ne (k2 : String) (v2 : V) (rest : List (String × V))
    (k : String) (h : k2 ≠ k) :
    lookupA ((k2, v2) :: rest) k = lookupA rest k := by
  rw [lookupA, if_neg h]

lemma lookupA_spreadMerge (base overlay : List (String × V)) (k : String) :
    lookupA (spreadMerge base overlay) k =
      match lookupA overlay k with
      | some v => some v
      | none => lookupA base k := by
  induction base with
  | nil =>
    show lookupA overlay k = _
    cases h : lookupA overlay k with
    | some w => rfl
    | none => rfl
  | cons p rest ih =>
    obtain ⟨k2, v2⟩ := p
    cases h2 : lookupA overlay k2 with
    | some w =>
      have hf : spreadMerge ((k2, v2) :: rest) overlay = spreadMerge rest overlay := by
        simp [spreadMerge, List.filter_cons, h2]
      rw [hf, ih]
      cases h : lookupA overlay k with
      | some v => rfl
      | none =>
        have hne : k2 ≠ k := fun he => by
          rw [he] at h2
          rw [h2] at h
          cases h
        rw [lookupA_cons_ne k2 v2 rest k hne]
    | none =>
      have hf : spreadMerge ((k2, v2) :: rest) overlay =
          (k2, v2) :: spreadMerge rest overlay := by
        simp [spreadMerge, List.filter_cons, h2]
      rw [hf]
      by_cases hkk : k2 = k
      · subst hkk
        rw [h2, lookupA_cons_eq, lookupA_cons_eq]
      · rw [lookupA_cons_ne k2 v2 _ k hkk, ih]
        cases h : lookupA overlay k with
        | some v => rfl
        | none => rw [lookupA_cons_ne k2 v2 rest k hkk]

/-- C9: the effective geocode cache is the bundled dataset merged with the
durable-store overlay, looked up by the lower-cased query: when the
lower-cased key is present in the overlay the lookup returns the overlay's
value, and when it is absent from the overlay the lookup returns the
bundled dataset's value. -/
theorem c9_cache_overlay_precedence (V : Type) (file overlay : List (String × V))
    (q : String) (v : V) :
    (lookupA overlay (jsToLower q) = some v →
      getCachedResult file (some overlay) q = some v)
    ∧ (lookupA overlay (jsToLower q) = none →
      getCachedResult file (some overlay) q = lookupA file (jsToLower q)) := by
  constructor
  · intro h
    rw [getCachedResult, getGeocodeCache, lookupA_spreadMerge, h]
  · intro h
    rw [getCachedResult, getGeocodeCache, lookupA_spreadMerge, h]

/-- Witness for C9 at a concrete cache: the overlay value wins for a key
present in both sources, up to query lower-casing. -/
theorem c9_cache_overlay_precedence_witness :
    getCachedResult [("paris", 1)] (some [("paris", 2)]) "Paris" = some 2 :=
  (c9_cache_overlay_precedence ℕ [("paris", 1)] [("paris", 2)] "Paris" 2).1 (by decide)

lemma mem_stepUI {st : UIState} {e : UIEvent} {x : String}
    (h : x ∈ st.scratched) : x ∈ (stepUI st e).scratched := by
  cases e with
  | mouseDown => exact h
  | mouseUp => exact h
  | polygonHover poly =>
    cases poly with
    | none => exact h
    | some p =>
      show x ∈ handlePolygonHover st.isDragging (some p) st.scratched
      rw [handlePolygonHover]
      by_cases hd : st.isDragging = true
      · rw [if_pos hd]
        exact Finset.mem_insert_of_mem h
      · rw [if_neg hd]
        exact h
  | polygonClick poly =>
    cases poly with
    | none => exact h
    | some p => exact Finset.mem_insert_of_mem h

/-- C10: the scratch set is monotonically non-decreasing under user
interaction: across any sequence of mouse, hover and click events the
handlers only ever insert derived country identifiers, so every previously
scratched identifier remains scratched. -/
theorem c10_scratch_set_monotone (evs : List UIEvent) (st : UIState) (x : String)
    (h : x ∈ st.scratched) : x ∈ (runUI st evs).scratched := by
  induction evs generalizing st with
  | nil => exact h
  | cons e es ih =>
    rw [runUI, List.foldl_cons]
    exact ih (stepUI st e) (mem_stepUI h)

/-- Witness for C10 at a concrete session: a previously scratched country
survives a drag-hover and a click on other countries. -/
theorem c10_scratch_set_monotone_witness :
    "France" ∈ (runUI ⟨false, {"France"}⟩
      [UIEvent.mouseDown,
       UIEvent.polygonHover (some ⟨some "Spain", none, none, none⟩),
       UIEvent.polygonClick (some ⟨none, some "Italy", none, none⟩)]).scratched :=
  c10_scratch_set_monotone _ _ "France" (by decide)

end ScratchMap
